import Mathlib

/-!
Verification of the remote-backed cache and reconciliation engine of
ganeti_webmgr (`ganeti/models.py`), as a shallow embedding in Lean 4.

The embedding follows the Python source closely:

* Python dict payloads returned by the remote API are association lists
  `Info = List (String × Value)`; a missing key raises `PyExc.keyError`.
* `datetime` values are modelled as integer timestamps (`Int`); what matters
  to the code is only their total order.  `datetime.fromtimestamp` succeeds
  exactly on numeric values and raises `TypeError` otherwise.
* The Django model instance `CachedClusterObject` becomes an explicit state
  record; Python instance attributes (including the subclass-specific `status`
  and `cluster_hash` attributes, which in Python live in the same attribute
  dictionary) are fields of one structure.
* Database side effects (full-record save, the narrow
  `.update(cached=...)` / `.update(ignore_cache=False)` queries) are logged
  as an explicit list of `DbOp` values.
* Exceptions are modelled by the `RefreshOutcome.raised` constructor, which
  carries the state at the moment the exception escapes, so that the effect
  of partially executed mutations stays observable.
-/

/-- A Python value appearing in a remote-API payload dictionary. -/
inductive Value where
  | int (n : Int)
  | str (s : String)
  | strs (l : List String)
  | vnone
  deriving DecidableEq, Repr

/-- A remote-API payload: a Python dict, modelled as an association list. -/
abbrev Info := List (String × Value)

/-- Dictionary lookup (first binding wins, as in a Python dict with unique keys). -/
def lookupInfo (i : Info) (k : String) : Option Value :=
  match i with
  | [] => none
  | (k2, v) :: rest => if k2 = k then some v else lookupInfo rest k

/-- The Python exceptions the modelled code can raise. -/
inductive PyExc where
  | keyError (k : String)
  | typeError
  | valueError
  | ganetiApiError (msg : String)
  deriving DecidableEq, Repr

/-- `datetime.fromtimestamp`: succeeds on a numeric value, raises `TypeError`
on `None` or any non-numeric value. -/
def fromtimestamp : Value → Except PyExc Int
  | Value.int n => Except.ok n
  | _ => Except.error PyExc.typeError

/-- Python truthiness of a primary key (`if self.id:`): `None` and `0` are falsy. -/
def truthyId : Option Nat → Bool
  | none => false
  | some n => n ≠ 0

/-- State of a `CachedClusterObject` instance (and of its subclasses `Job`,
`VirtualMachine`, `Cluster`, which in Python share the same attribute space).
`serialized_info` is `none` when the column is NULL / the in-memory copy is
dirty, and `some b` when it holds the pickled blob of the Python value `b`
(itself an `Option Info`, since `cPickle.dumps(None)` is legal).
`infoB` is the private `__info` backing attribute. -/
structure CachedClusterObject where
  id : Option Nat := none
  serialized_info : Option (Option Info) := none
  mtime : Option Int := none
  cached : Option Int := none
  ignore_cache : Bool := false
  infoB : Option Info := none
  error : Option String := none
  ctime : Option Int := none
  status : Option Value := none
  cluster_hash : String := ""
  deriving DecidableEq, Repr

/-- The `info` property getter: return `__info` if set, otherwise deserialize
`serialized_info` (which may itself encode `None`). -/
def CachedClusterObject.info (s : CachedClusterObject) : Option Info :=
  match s.infoB with
  | some i => some i
  | none =>
    match s.serialized_info with
    | some b => b
    | none => none

/-- Python truthiness of `self.info` (`if self.info:`): falsy when `None`
or an empty dict. -/
def CachedClusterObject.infoTruthy (s : CachedClusterObject) : Bool :=
  match s.info with
  | some i => i ≠ []
  | none => false

/-- Database side effects performed by the modelled code. -/
inductive DbOp where
  | fullSave (row : CachedClusterObject)
  | updateCached (id : Option Nat) (t : Int)
  | updateIgnoreCache (id : Option Nat) (b : Bool)
  deriving DecidableEq, Repr

/-- Outcome of a method call: normal return with the new state and the list
of database operations performed, or an escaped Python exception together
with the state and operations at the moment it escaped. -/
inductive RefreshOutcome where
  | ok (s : CachedClusterObject) (ops : List DbOp)
  | raised (e : PyExc) (s : CachedClusterObject) (ops : List DbOp)
  deriving DecidableEq, Repr

/-- `CachedClusterObject.parse_transient_info`: reads `self.info['ctime']`
and, when it is not `None`, stores `datetime.fromtimestamp` of it in
`self.ctime`.  Raises `TypeError` when `info` is `None` (subscripting `None`),
`KeyError` when the key is missing, `TypeError` when the value is non-numeric. -/
def parse_transient_info (s : CachedClusterObject) : Except PyExc CachedClusterObject :=
  match s.info with
  | none => Except.error PyExc.typeError
  | some info_ =>
    match lookupInfo info_ "ctime" with
    | none => Except.error (PyExc.keyError "ctime")
    | some v =>
      if v = Value.vnone then Except.ok s
      else
        match fromtimestamp v with
        | Except.error e => Except.error e
        | Except.ok n => Except.ok { s with ctime := some n }

/-- `CachedClusterObject.parse_persistent_info`: sets `self.mtime` from
`self.__info['mtime']`.  Returns the performed DB operations (none for the
base class; the `Job` override performs a narrow update). -/
def parse_persistent_info (s : CachedClusterObject) :
    Except PyExc (CachedClusterObject × List DbOp) :=
  match s.infoB with
  | none => Except.error PyExc.typeError
  | some info_ =>
    match lookupInfo info_ "mtime" with
    | none => Except.error (PyExc.keyError "mtime")
    | some v =>
      match fromtimestamp v with
      | Except.error e => Except.error e
      | Except.ok n => Except.ok ({ s with mtime := some n }, [])

/-- `CachedClusterObject.parse_info`: transient parsing then persistent parsing. -/
def parse_info (s : CachedClusterObject) :
    Except PyExc (CachedClusterObject × List DbOp) :=
  match parse_transient_info s with
  | Except.error e => Except.error e
  | Except.ok s1 => parse_persistent_info s1

/-- `CachedClusterObject.save`: if `serialized_info` is NULL, encode `__info`
into it, then write the full record. -/
def ccoSave (s : CachedClusterObject) : CachedClusterObject × DbOp :=
  match s.serialized_info with
  | none =>
    let s1 := { s with serialized_info := some s.infoB }
    (s1, DbOp.fullSave s1)
  | some _ => (s, DbOp.fullSave s)

/-- Generic body of `CachedClusterObject.refresh`, parameterized by the
(possibly overridden) `parse_info` and `save` methods.  `fetch` is the result
of the entity-specific `_refresh()` remote call: `Sum.inl msg` models a raised
`GanetiApiError` with message `msg`, `Sum.inr payload` a successful fetch. -/
def refreshG (parse : CachedClusterObject → Except PyExc (CachedClusterObject × List DbOp))
    (doSave : CachedClusterObject → CachedClusterObject × DbOp)
    (s : CachedClusterObject) (fetch : Sum String Info) (now : Int) : RefreshOutcome :=
  match fetch with
  | Sum.inl e =>
    -- except GanetiApiError, e: self.error = str(e)
    RefreshOutcome.ok { s with error := some e } []
  | Sum.inr info_ =>
    -- mtime = datetime.fromtimestamp(info_['mtime'])
    match lookupInfo info_ "mtime" with
    | none => RefreshOutcome.raised (PyExc.keyError "mtime") s []
    | some v =>
      match fromtimestamp v with
      | Except.error e => RefreshOutcome.raised e s []
      | Except.ok mt =>
        let s1 := { s with cached := some now }
        let doUpdate : Bool :=
          match s1.mtime with
          | none => true
          | some old => old < mt
        if doUpdate then
          -- self.info = info_ (setter): __info := info_; parse_info(); serialized_info := None
          let s2 := { s1 with infoB := some info_ }
          match parse s2 with
          | Except.error e => RefreshOutcome.raised e s2 []
          | Except.ok (s3, pops) =>
            let s4 := { s3 with serialized_info := none }
            let (s5, op) := doSave s4
            RefreshOutcome.ok { s5 with error := none } (pops ++ [op])
        else
          RefreshOutcome.ok { s1 with error := none } [DbOp.updateCached s1.id now]

/-- `CachedClusterObject.refresh` with the base-class parse and save methods. -/
def refresh (s : CachedClusterObject) (fetch : Sum String Info) (now : Int) :
    RefreshOutcome :=
  refreshG parse_info ccoSave s fetch now

/-- `CachedClusterObject.load_info`, with `window` the
`settings.LAZY_CACHE_REFRESH` staleness window: refresh when forced or stale,
otherwise re-parse transient fields from a truthy cached `info`, or record
the error string when `info` is falsy. -/
def load_info (s : CachedClusterObject) (fetch : Sum String Info)
    (now window : Int) : RefreshOutcome :=
  if truthyId s.id then
    if s.ignore_cache then refresh s fetch now
    else
      match s.cached with
      | none => refresh s fetch now
      | some c =>
        if c + window < now then refresh s fetch now
        else
          if s.infoTruthy then
            match parse_transient_info s with
            | Except.ok s1 => RefreshOutcome.ok s1 []
            | Except.error e => RefreshOutcome.raised e s []
          else
            RefreshOutcome.ok { s with error := some "No Cached Info" } []
  else RefreshOutcome.ok s []

/-- `Job.parse_persistent_info`: while `ignore_cache` is set, record
`self.status = info_['status']` and, if the status is terminal
(`'error'` or `'success'`), clear `ignore_cache` and persist that flag with a
narrow `.update(ignore_cache=False)` query. -/
def jobParsePersistentInfo (s : CachedClusterObject) :
    Except PyExc (CachedClusterObject × List DbOp) :=
  if s.ignore_cache then
    match s.info with
    | none => Except.error PyExc.typeError
    | some info_ =>
      match lookupInfo info_ "status" with
      | none => Except.error (PyExc.keyError "status")
      | some v =>
        let s1 := { s with status := some v }
        if v = Value.str "error" ∨ v = Value.str "success" then
          Except.ok ({ s1 with ignore_cache := false },
                     [DbOp.updateIgnoreCache s.id false])
        else
          Except.ok (s1, [])
  else Except.ok (s, [])

/-- `Job.parse_info`: `parse_transient_info` is `pass` for jobs, so this is
just the job's persistent parsing. -/
def jobParseInfo (s : CachedClusterObject) :
    Except PyExc (CachedClusterObject × List DbOp) :=
  jobParsePersistentInfo s

/-- `Job.save`: on a record with no identity, set `cluster_hash` from the
owning cluster's hash (`clusterHash`); then the base-class save. -/
def jobSave (clusterHash : String) (s : CachedClusterObject) :
    CachedClusterObject × DbOp :=
  let s1 := if s.id = none then { s with cluster_hash := clusterHash } else s
  ccoSave s1

/-- `Job.load_info`: only acts when the record has an identity and
`ignore_cache` is set; then it assigns `self.info = self._refresh()` — with no
try/except, so a `GanetiApiError` raised by the fetch escapes — and saves. -/
def jobLoadInfo (s : CachedClusterObject) (clusterHash : String)
    (fetch : Sum String Info) : RefreshOutcome :=
  if truthyId s.id ∧ s.ignore_cache then
    match fetch with
    | Sum.inl e => RefreshOutcome.raised (PyExc.ganetiApiError e) s []
    | Sum.inr info_ =>
      -- self.info = ... (setter): __info := info_; parse_info(); serialized_info := None
      let s1 := { s with infoB := some info_ }
      match jobParseInfo s1 with
      | Except.error e => RefreshOutcome.raised e s1 []
      | Except.ok (s2, pops) =>
        let s3 := { s2 with serialized_info := none }
        let (s4, op) := jobSave clusterHash s3
        RefreshOutcome.ok s4 (pops ++ [op])
  else RefreshOutcome.ok s []

/-- Modelled from the spec: `constants.OWNER_TAG` (the module
`ganeti/constants.py` is not among the provided sources).  Per spec §4.4 it is
the fixed prefix of "a tag encoding the current owner"; the concrete literal
is immaterial to the claims, which depend only on it being one fixed string. -/
def OWNER_TAG : String := "gwm:owner:"

/-- The owner tag written for owner id `o`: `'%s%s' % (OWNER_TAG, owner_id)`. -/
def ownerTag (o : Int) : String := OWNER_TAG ++ toString o

/-- Remote tag calls made by `VirtualMachine.save`. -/
inductive RapiCall where
  | deleteTags (host : String) (tags : List String)
  | addTags (host : String) (tags : List String)
  deriving DecidableEq, Repr

/-- Decimal-digit parse of a natural number, the digits-only core of Python
`int()` (operating on the character list so that it is kernel-computable). -/
def parseNatDigits (cs : List Char) : Option Nat :=
  if cs ≠ [] ∧ cs.all (fun c => c.isDigit) then
    some (cs.foldl (fun n c => n * 10 + (c.toNat - 48)) 0)
  else none

/-- Python `int()` on a string's characters: an optional minus sign followed
by decimal digits; `none` models a raised `ValueError`. -/
def parseInt (cs : List Char) : Option Int :=
  match cs with
  | [] => none
  | c :: rest =>
    if c = Char.ofNat 45 then (parseNatDigits rest).map (fun n => -(n : Int))
    else (parseNatDigits (c :: rest)).map (fun n => (n : Int))

/-- A tag that starts with the owner prefix (`tag.startswith(OWNER_TAG)`). -/
def ownerPrefixed (t : String) : Bool := OWNER_TAG.data.isPrefixOf t.data

/-- The owner id parsed from an owner-prefixed tag
(`int(tag[len(constants.OWNER_TAG):])`); `none` models a raised `ValueError`. -/
def tagOwner (t : String) : Option Int := parseInt (t.data.drop OWNER_TAG.data.length)

/-- The tag scan loop of `VirtualMachine.save`: over `info_['tags']`, for each
tag starting with `OWNER_TAG`, parse the numeric suffix (`int(...)`, raising
`ValueError` on garbage); mark `found` when it equals the current `owner_id`,
otherwise schedule the tag for removal.  Returns `(found, remove)`. -/
def scanTags (oid : Option Int) : List String → Except PyExc (Bool × List String)
  | [] => Except.ok (false, [])
  | t :: ts =>
    if ownerPrefixed t then
      match tagOwner t with
      | none => Except.error PyExc.valueError
      | some i =>
        match scanTags oid ts with
        | Except.error e => Except.error e
        | Except.ok (found, rem) =>
          if some i = oid then Except.ok (true, rem)
          else Except.ok (found, t :: rem)
    else scanTags oid ts

/-- `tags.remove(tag)` applied once for each scheduled tag, in order. -/
def removeEach (tags : List String) : List String → List String
  | [] => tags
  | r :: rs => removeEach (tags.erase r) rs

/-- Python truthiness of `self.owner_id` (`if self.owner_id and not found:`). -/
def truthyOwner : Option Int → Bool
  | none => false
  | some o => o ≠ 0

/-- The owner-tag reconciliation block of `VirtualMachine.save`
(models lines 353–375 of `ganeti/models.py`, for an instance whose `info` is
loaded and truthy): scan `info_['tags']`; batch-delete all stale owner tags
(one `DeleteInstanceTags` call) and remove them in memory; if the record has a
(truthy) owner and no matching tag was found, one `AddInstanceTags` call adds
the new owner tag and appends it in memory.  Returns the updated in-memory
tag list and the remote calls performed, in order. -/
def vmSaveTags (oid : Option Int) (host : String) (tags : List String) :
    Except PyExc (List String × List RapiCall) :=
  match scanTags oid tags with
  | Except.error e => Except.error e
  | Except.ok (found, remove) =>
    let tags1 := if remove = [] then tags else removeEach tags remove
    let calls1 : List RapiCall :=
      if remove = [] then [] else [RapiCall.deleteTags host remove]
    if truthyOwner oid ∧ found = false then
      match oid with
      | some o =>
        Except.ok (tags1 ++ [ownerTag o], calls1 ++ [RapiCall.addTags host [ownerTag o]])
      | none => Except.ok (tags1, calls1)
    else
      Except.ok (tags1, calls1)

/-- A persisted `VirtualMachine` row, reduced to the fields
`Cluster.sync_virtual_machines` touches: hostname and owner. -/
structure VMRow where
  hostname : String
  owner : Option Int
  deriving DecidableEq, Repr

/-- The hostname column of a set of rows
(`values_list('hostname', flat=True)`). -/
def hostnames (rows : List VMRow) : List String :=
  rows.map VMRow.hostname

/-- `Cluster.sync_virtual_machines(remove)`: `ganeti` is the remote instance
list, `db` the cluster's persisted VirtualMachine rows.  Creates an ownerless
row for each remote hostname missing locally; when `remove` is set, deletes
the rows whose hostname is absent remotely (computed from the pre-insertion
hostname list, as in the source).  Returns the resulting rows and the list of
deleted hostnames. -/
def sync_virtual_machines (ganeti : List String) (db : List VMRow)
    (remove : Bool) : List VMRow × List String :=
  let dbHost := hostnames db
  let additions :=
    (ganeti.filter (fun x => x ∉ dbHost)).map (fun h => VMRow.mk h none)
  let db1 := db ++ additions
  if remove then
    let missing := dbHost.filter (fun x => x ∉ ganeti)
    (db1.filter (fun r => r.hostname ∉ missing), missing)
  else (db1, [])

/-- A persisted `Cluster` row, reduced to the credentials that `get_rapi`
reads via `values_list('hash','hostname','port','username','password')`.
Django `CharField` stores the empty string for a blank credential. -/
structure ClusterRow where
  id : Nat
  hash : String
  hostname : String
  port : Nat
  username : String
  password : String
  deriving DecidableEq, Repr

/-- A constructed `GanetiRapiClient` handle.  `cid` is the construction
identity (a fresh counter value per construction), so two handles are "the
identical handle" exactly when they are equal as values. -/
structure RapiClient where
  cid : Nat
  host : String
  port : Nat
  username : Option String
  password : Option String
  deriving DecidableEq, Repr

/-- Association-list lookup for the two module-level dict caches. -/
def alookup {α β : Type} [DecidableEq α] : List (α × β) → α → Option β
  | [], _ => none
  | (k, v) :: rest, k2 => if k = k2 then some v else alookup rest k2

/-- Python `del d[k]`: drop the binding for `k`. -/
def adel {α β : Type} [DecidableEq α] (l : List (α × β)) (k : α) : List (α × β) :=
  l.filter (fun kv => ¬ kv.1 = k)

/-- Python `d[k] = v`: bind `k` to `v`, replacing any previous binding. -/
def aset {α β : Type} [DecidableEq α] (l : List (α × β)) (k : α) (v : β) :
    List (α × β) :=
  (k, v) :: adel l k

/-- The module-level connection registry: `RAPI_CACHE`
(fingerprint → client), `RAPI_CACHE_HASHES` (cluster id → fingerprint last
cached for it), plus a construction counter supplying fresh client
identities. -/
structure RapiState where
  cache : List (String × RapiClient)
  cacheHashes : List (Nat × String)
  counter : Nat
  deriving DecidableEq, Repr

/-- `get_rapi(hash, cluster)` (the `cluster` argument already reduced to the
cluster id, as the source does for instances).  `db` is the Cluster table.
Returns `none` when no cluster row matches (`Cluster.DoesNotExist`);
otherwise the client handle and the updated registry:

1. return a cache hit on the caller-supplied fingerprint unchanged;
2. otherwise re-resolve current credentials from the record store,
3. return a cache hit on the fresh fingerprint,
4. otherwise evict the fingerprint last cached for this cluster id and
5. construct, cache and return a new client. -/
def get_rapi (st : RapiState) (hash : String) (db : List ClusterRow)
    (clusterId : Nat) : Option (RapiClient × RapiState) :=
  match alookup st.cache hash with
  | some c => some (c, st)
  | none =>
    match db.find? (fun r => r.id = clusterId) with
    | none => none
    | some row =>
      let hash2 := row.hash
      let user := if row.username = "" then none else some row.username
      let pword := if row.password = "" then none else some row.password
      match alookup st.cache hash2 with
      | some c => some (c, st)
      | none =>
        let cache1 :=
          match alookup st.cacheHashes clusterId with
          | some oldh => adel st.cache oldh
          | none => st.cache
        let cl : RapiClient :=
          { cid := st.counter, host := row.hostname, port := row.port,
            username := user, password := pword }
        some (cl, { cache := aset cache1 hash2 cl,
                    cacheHashes := aset st.cacheHashes clusterId hash2,
                    counter := st.counter + 1 })

/-- `clear_rapi_cache()`. -/
def clear_rapi_cache (st : RapiState) : RapiState :=
  { st with cache := [], cacheHashes := [] }

/-- Keys of an association list are pairwise distinct (dict well-formedness). -/
def keysNodup {α β : Type} (l : List (α × β)) : Prop :=
  (l.map Prod.fst).Nodup

/-- Recognizer for `DeleteInstanceTags` calls. -/
def RapiCall.isDelete : RapiCall → Bool
  | RapiCall.deleteTags _ _ => true
  | RapiCall.addTags _ _ => false

/-- Recognizer for `AddInstanceTags` calls. -/
def RapiCall.isAdd : RapiCall → Bool
  | RapiCall.deleteTags _ _ => false
  | RapiCall.addTags _ _ => true

/- ======================================================================
   Theorems
   ====================================================================== -/

/-- Claim C1: for an entity whose local `mtime` is set, a `refresh()` whose
fetched payload carries an mtime less than or equal to the stored one leaves
`info` (both the backing attribute and the serialized blob) unchanged, does
not re-encode `serialized_info`, performs no full-record save, and advances
only the cached timestamp through the narrow `.update(cached=...)` query
(clearing the transient `error` attribute on the way, as every successful
refresh does). -/
theorem refresh_no_change_narrow_update
    (s : CachedClusterObject) (p : Info) (now old t : Int)
    (hm : s.mtime = some old)
    (hp : lookupInfo p "mtime" = some (Value.int t))
    (hle : t ≤ old) :
    refresh s (Sum.inr p) now =
      RefreshOutcome.ok { s with cached := some now, error := none }
        [DbOp.updateCached s.id now] ∧
    (∀ s2 ops, refresh s (Sum.inr p) now = RefreshOutcome.ok s2 ops →
      s2.infoB = s.infoB ∧ s2.serialized_info = s.serialized_info ∧
      s2.info = s.info ∧ s2.mtime = s.mtime ∧ s2.cached = some now ∧
      ∀ row, DbOp.fullSave row ∉ ops) := by
  have hmain : refresh s (Sum.inr p) now =
      RefreshOutcome.ok { s with cached := some now, error := none }
        [DbOp.updateCached s.id now] := by
    simp [refresh, refreshG, hp, fromtimestamp, hm, Int.not_lt.mpr hle]
  refine ⟨hmain, ?_⟩
  intro s2 ops h
  rw [hmain] at h
  injection h with h1 h2
  subst h1; subst h2
  refine ⟨rfl, rfl, ?_, ?_, rfl, ?_⟩
  · simp [CachedClusterObject.info]
  · exact hm.symm ▸ rfl
  · intro row hrow
    simp at hrow

/-- Witness for C1 at a concrete entity and payload. -/
theorem refresh_no_change_narrow_update_witness :
    refresh { id := some 4, mtime := some 10, cached := some 0,
              serialized_info := some (some [("mtime", Value.int 10)]) }
        (Sum.inr [("mtime", Value.int 9), ("ctime", Value.int 3)]) 100 =
      RefreshOutcome.ok
        { id := some 4, mtime := some 10, cached := some 100,
          serialized_info := some (some [("mtime", Value.int 10)]), error := none }
        [DbOp.updateCached (some 4) 100] := by
  have h := (refresh_no_change_narrow_update
    { id := some 4, mtime := some 10, cached := some 0,
      serialized_info := some (some [("mtime", Value.int 10)]) }
    [("mtime", Value.int 9), ("ctime", Value.int 3)] 100 10 9
    rfl rfl (by decide)).1
  exact h

/-- Claim C2: when the local `mtime` is unset or the fetched payload's mtime
is strictly greater, `refresh()` stores the fetched payload in `info`, runs
transient parsing (`ctime`) and persistent parsing (`mtime`), performs a
full-record save, and (the setter having marked the blob dirty) `save()`
re-encodes `serialized_info` from the new payload. -/
theorem refresh_update_replaces_info
    (s : CachedClusterObject) (p : Info) (now t c : Int)
    (hp : lookupInfo p "mtime" = some (Value.int t))
    (hc : lookupInfo p "ctime" = some (Value.int c))
    (hm : s.mtime = none ∨ ∃ old, s.mtime = some old ∧ old < t) :
    refresh s (Sum.inr p) now =
      RefreshOutcome.ok
        { s with cached := some now, infoB := some p, ctime := some c,
                 mtime := some t, serialized_info := some (some p),
                 error := none }
        [DbOp.fullSave
          { s with cached := some now, infoB := some p, ctime := some c,
                   mtime := some t, serialized_info := some (some p) }] := by
  rcases hm with hm | ⟨old, hm, hlt⟩ <;>
    simp [refresh, refreshG, hp, hc, fromtimestamp, hm, parse_info,
          parse_transient_info, parse_persistent_info, ccoSave,
          CachedClusterObject.info, *]

/-- Witness for C2 at a concrete entity and payload. -/
theorem refresh_update_replaces_info_witness :
    refresh { id := some 4, mtime := some 10, cached := some 0,
              serialized_info := some (some [("mtime", Value.int 10)]) }
        (Sum.inr [("mtime", Value.int 11), ("ctime", Value.int 3)]) 100 =
      RefreshOutcome.ok
        { id := some 4, mtime := some 11, cached := some 100,
          infoB := some [("mtime", Value.int 11), ("ctime", Value.int 3)],
          ctime := some 3,
          serialized_info := some (some [("mtime", Value.int 11), ("ctime", Value.int 3)]),
          error := none }
        [DbOp.fullSave
          { id := some 4, mtime := some 11, cached := some 100,
            infoB := some [("mtime", Value.int 11), ("ctime", Value.int 3)],
            ctime := some 3,
            serialized_info := some (some [("mtime", Value.int 11), ("ctime", Value.int 3)]) }] := by
  have h := refresh_update_replaces_info
    { id := some 4, mtime := some 10, cached := some 0,
      serialized_info := some (some [("mtime", Value.int 10)]) }
    [("mtime", Value.int 11), ("ctime", Value.int 3)] 100 11 3
    rfl rfl (Or.inr ⟨10, rfl, by decide⟩)
  exact h

/-- Claim C3: a remote-fetch failure (`GanetiApiError`) inside `refresh()`
leaves `info`, `cached` and `mtime` exactly as they were, performs no
database operation, and sets `error` to the exception's description (non-empty
whenever the exception carries a non-empty message); conversely every
successful `refresh()` clears `error` to `None`. -/
theorem refresh_failure_frame
    (s : CachedClusterObject) (msg : String) (now : Int) (hne : msg ≠ "") :
    (refresh s (Sum.inl msg) now =
        RefreshOutcome.ok { s with error := some msg } [] ∧
      ({ s with error := some msg } : CachedClusterObject).info = s.info ∧
      ({ s with error := some msg } : CachedClusterObject).cached = s.cached ∧
      ({ s with error := some msg } : CachedClusterObject).mtime = s.mtime ∧
      (some msg ≠ (none : Option String) ∧ msg ≠ "")) ∧
    (∀ p s2 ops, refresh s (Sum.inr p) now = RefreshOutcome.ok s2 ops →
        s2.error = none) := by
  refine ⟨⟨rfl, ?_, rfl, rfl, by simp, hne⟩, ?_⟩
  · simp [CachedClusterObject.info]
  · intro p s2 ops h
    unfold refresh refreshG at h
    rcases hl : lookupInfo p "mtime" with _ | v
    · simp [hl] at h
    · rcases v with n | st | l | u <;> simp [hl, fromtimestamp] at h
      rcases h2 : (match s.mtime with
        | none => true
        | some old => decide (old < n) : Bool) with _ | _
      · rw [show ({ s with cached := some now } : CachedClusterObject).mtime = s.mtime
              from rfl] at h
        simp [h2] at h
        rw [← h.1]
      · simp only [show ({ s with cached := some now } : CachedClusterObject).mtime = s.mtime
              from rfl, h2, if_true] at h
        rcases hp : parse_info { s with cached := some now, infoB := some p } with e | ⟨s3, pops⟩
        · simp [hp] at h
        · simp [hp] at h
          rcases hsv : ccoSave { s3 with serialized_info := none } with ⟨s5, op⟩
          simp [hsv] at h
          rw [← h.1]

/-- Witness for C3 at a concrete entity, failure message and payload. -/
theorem refresh_failure_frame_witness :
    refresh { id := some 4, mtime := some 10, cached := some 0 }
        (Sum.inl "connection refused") 100 =
      RefreshOutcome.ok
        { id := some 4, mtime := some 10, cached := some 0,
          error := some "connection refused" } [] := by
  exact ((refresh_failure_frame { id := some 4, mtime := some 10, cached := some 0 }
    "connection refused" 100 (by decide)).1).1

/-- Claim C10: `refresh()` absorbs only `GanetiApiError`.  If the fetch
succeeds but the payload has no `mtime` key, the `KeyError` raised while
computing the modification time escapes `refresh()` (and hence the
`load_info()` call that invoked it) with the state untouched — in particular
`cached` is not advanced; a payload whose `mtime` value is non-numeric
likewise lets the `TypeError` escape.  A `GanetiApiError`, by contrast, is
absorbed. -/
theorem refresh_missing_mtime_raises
    (s : CachedClusterObject) (p : Info) (now window : Int) (msg : String)
    (hid : truthyId s.id = true) (hic : s.ignore_cache = true) :
    (lookupInfo p "mtime" = none →
        refresh s (Sum.inr p) now =
          RefreshOutcome.raised (PyExc.keyError "mtime") s [] ∧
        load_info s (Sum.inr p) now window =
          RefreshOutcome.raised (PyExc.keyError "mtime") s []) ∧
    (∀ v, lookupInfo p "mtime" = some v → (∀ n, v ≠ Value.int n) →
        refresh s (Sum.inr p) now = RefreshOutcome.raised PyExc.typeError s []) ∧
    (refresh s (Sum.inl msg) now =
        RefreshOutcome.ok { s with error := some msg } []) := by
  refine ⟨?_, ?_, rfl⟩
  · intro hl
    have h1 : refresh s (Sum.inr p) now =
        RefreshOutcome.raised (PyExc.keyError "mtime") s [] := by
      simp [refresh, refreshG, hl]
    exact ⟨h1, by simp [load_info, hid, hic, h1]⟩
  · intro v hl hv
    rcases v with n | st | l | u
    · exact absurd rfl (hv n)
    all_goals simp [refresh, refreshG, hl, fromtimestamp]

/-- Witness for C10 at a concrete entity and mtime-less payload. -/
theorem refresh_missing_mtime_raises_witness :
    refresh { id := some 2, ignore_cache := true, cached := some 7 }
        (Sum.inr [("ctime", Value.int 3)]) 100 =
      RefreshOutcome.raised (PyExc.keyError "mtime")
        { id := some 2, ignore_cache := true, cached := some 7 } [] ∧
    load_info { id := some 2, ignore_cache := true, cached := some 7 }
        (Sum.inr [("ctime", Value.int 3)]) 100 5 =
      RefreshOutcome.raised (PyExc.keyError "mtime")
        { id := some 2, ignore_cache := true, cached := some 7 } [] := by
  exact (refresh_missing_mtime_raises
    { id := some 2, ignore_cache := true, cached := some 7 }
    [("ctime", Value.int 3)] 100 5 "x" (by decide) rfl).1 rfl

/-- Counterexample to claim C8: the claim says `loadInfo()` sets
`error = "No Cached Info"` only when `info` is absent and otherwise re-derives
transient fields.  The source tests Python truthiness (`if self.info:`), so a
present but empty cached payload (a pickled empty dict) also takes the error
branch: here `info` is `some []` (present), yet `load_info` records
`error = "No Cached Info"` and re-derives nothing. -/
theorem load_info_empty_info_counterexample :
    (({ id := some 1, cached := some 100,
        serialized_info := some (some []) } : CachedClusterObject).info
          = some []) ∧
    load_info
        { id := some 1, cached := some 100, serialized_info := some (some []) }
        (Sum.inr [("mtime", Value.int 1), ("ctime", Value.int 1)]) 101 50 =
      RefreshOutcome.ok
        { id := some 1, cached := some 100, serialized_info := some (some []),
          error := some "No Cached Info" } [] := by
  exact ⟨rfl, by decide⟩

/-- Claim C8 as amended: `load_info()` does nothing on a record without a
(truthy) identity; forces `refresh()` when `ignore_cache` is set; refreshes
when `cached` is unset or `now` exceeds `cached` plus the lazy window;
otherwise re-derives transient fields from the cached `info` when that `info`
is truthy (present and non-empty), and sets `error = "No Cached Info"` when
`info` is `None` or empty. -/
theorem load_info_dispatch
    (s : CachedClusterObject) (f : Sum String Info) (now window : Int) :
    (truthyId s.id = false → load_info s f now window = RefreshOutcome.ok s []) ∧
    (truthyId s.id = true → s.ignore_cache = true →
        load_info s f now window = refresh s f now) ∧
    (truthyId s.id = true → s.ignore_cache = false → s.cached = none →
        load_info s f now window = refresh s f now) ∧
    (∀ c, truthyId s.id = true → s.ignore_cache = false → s.cached = some c →
        c + window < now → load_info s f now window = refresh s f now) ∧
    (∀ c, truthyId s.id = true → s.ignore_cache = false → s.cached = some c →
        ¬ c + window < now → s.infoTruthy = true →
        load_info s f now window =
          (match parse_transient_info s with
           | Except.ok s1 => RefreshOutcome.ok s1 []
           | Except.error e => RefreshOutcome.raised e s [])) ∧
    (∀ c, truthyId s.id = true → s.ignore_cache = false → s.cached = some c →
        ¬ c + window < now → s.infoTruthy = false →
        load_info s f now window =
          RefreshOutcome.ok { s with error := some "No Cached Info" } []) := by
  refine ⟨?_, ?_, ?_, ?_, ?_, ?_⟩
  · intro h; simp [load_info, h]
  · intro h1 h2; simp [load_info, h1, h2]
  · intro h1 h2 h3; simp [load_info, h1, h2, h3]
  · intro c h1 h2 h3 h4; simp [load_info, h1, h2, h3, h4]
  · intro c h1 h2 h3 h4 h5; simp [load_info, h1, h2, h3, h4, h5]
  · intro c h1 h2 h3 h4 h5; simp [load_info, h1, h2, h3, h4, h5]

/-- Witness for the amended C8 theorem, exercising the no-identity branch, a
forced refresh, and the empty-info error branch at concrete inputs. -/
theorem load_info_dispatch_witness :
    load_info ({ } : CachedClusterObject) (Sum.inl "x") 5 5 =
      RefreshOutcome.ok ({ } : CachedClusterObject) [] ∧
    load_info { id := some 1, ignore_cache := true } (Sum.inl "x") 5 5 =
      refresh { id := some 1, ignore_cache := true } (Sum.inl "x") 5 ∧
    load_info
        { id := some 1, cached := some 100, serialized_info := some (some []) }
        (Sum.inl "x") 101 50 =
      RefreshOutcome.ok
        { id := some 1, cached := some 100, serialized_info := some (some []),
          error := some "No Cached Info" } [] := by
  refine ⟨?_, ?_, ?_⟩
  · exact (load_info_dispatch ({ } : CachedClusterObject) (Sum.inl "x") 5 5).1 rfl
  · exact (load_info_dispatch { id := some 1, ignore_cache := true }
      (Sum.inl "x") 5 5).2.1 (by decide) rfl
  · exact (load_info_dispatch
      { id := some 1, cached := some 100, serialized_info := some (some []) }
      (Sum.inl "x") 101 50).2.2.2.2.2 100 (by decide) rfl rfl (by decide) (by decide)

/-- The only exception `fromtimestamp` raises is `TypeError`. -/
theorem fromtimestamp_error (v : Value) (e : PyExc)
    (h : fromtimestamp v = Except.error e) : e = PyExc.typeError := by
  cases v <;> simp [fromtimestamp] at h <;> exact h.symm

/-- The exceptions `parse_transient_info` can raise are `KeyError` and
`TypeError`, never a `GanetiApiError`. -/
theorem parse_transient_info_no_api_error
    (s : CachedClusterObject) (e : PyExc) (m : String)
    (h : parse_transient_info s = Except.error e) :
    e ≠ PyExc.ganetiApiError m := by
  unfold parse_transient_info at h
  split at h
  · injection h with h; subst h; simp
  · split at h
    · injection h with h; subst h; simp
    · split at h
      · exact absurd h (by simp)
      · split at h
        · rename_i e2 heq
          injection h with h
          subst h
          rw [fromtimestamp_error _ _ heq]
          simp
        · exact absurd h (by simp)

/-- Counterexample to claim C9: a remote-fetch failure is claimed never to
propagate past `loadInfo()` for any entity kind, including Job's specialized
path.  `Job.load_info` calls `self._refresh()` with no try/except, so on a
pending job a `GanetiApiError` escapes to the caller. -/
theorem job_load_info_propagates_counterexample :
    jobLoadInfo { id := some 1, ignore_cache := true } "h"
        (Sum.inl "connection refused") =
      RefreshOutcome.raised (PyExc.ganetiApiError "connection refused")
        { id := some 1, ignore_cache := true } [] := by
  decide

/-- Claim C9 as amended: a remote-fetch failure is captured into `error` and
never escapes the generic `refresh()` (for every entity kind) or the generic
`load_info()`; but `Job.load_info`, which fetches without a try/except,
propagates the `GanetiApiError` to its caller. -/
theorem fetch_failure_absorbed
    (s : CachedClusterObject) (msg clusterHash : String) (now window : Int) :
    (refresh s (Sum.inl msg) now =
        RefreshOutcome.ok { s with error := some msg } []) ∧
    (∀ e s2 ops m, load_info s (Sum.inl msg) now window =
        RefreshOutcome.raised e s2 ops → e ≠ PyExc.ganetiApiError m) ∧
    (truthyId s.id = true → s.ignore_cache = true →
        jobLoadInfo s clusterHash (Sum.inl msg) =
          RefreshOutcome.raised (PyExc.ganetiApiError msg) s []) := by
  refine ⟨rfl, ?_, ?_⟩
  · intro e s2 ops m h
    have hr : ∀ e2 st2 ops2,
        refresh s (Sum.inl msg) now ≠ RefreshOutcome.raised e2 st2 ops2 := by
      intro e2 st2 ops2 hcon
      simp [refresh, refreshG] at hcon
    unfold load_info at h
    split at h
    · split at h
      · exact absurd h (hr e s2 ops)
      · split at h
        · exact absurd h (hr e s2 ops)
        · split at h
          · exact absurd h (hr e s2 ops)
          · split at h
            · split at h
              · exact absurd h (by simp)
              · rename_i e2 heq
                injection h with he hs hops
                subst he
                exact parse_transient_info_no_api_error s e2 m heq
            · exact absurd h (by simp)
    · exact absurd h (by simp)
  · intro h1 h2
    simp [jobLoadInfo, h1, h2]

/-- Witness for the amended C9 theorem: the pending-Job propagation at a
concrete job. -/
theorem fetch_failure_absorbed_witness :
    jobLoadInfo { id := some 3, ignore_cache := true } "hash"
        (Sum.inl "timeout") =
      RefreshOutcome.raised (PyExc.ganetiApiError "timeout")
        { id := some 3, ignore_cache := true } [] ∧
    refresh { id := some 3, ignore_cache := true } (Sum.inl "timeout") 9 =
      RefreshOutcome.ok
        { id := some 3, ignore_cache := true, error := some "timeout" } [] := by
  have h := fetch_failure_absorbed { id := some 3, ignore_cache := true }
    "timeout" "hash" 9 0
  exact ⟨h.2.2 (by decide) rfl, h.1⟩

/-- Counterexample to claim C5: once terminal, a Job is claimed to obey the
ordinary staleness-window caching of other entities.  But `Job.load_info`
overrides the generic `load_info` with a body that acts only while
`ignore_cache` is set: on a terminal job whose cache has long expired
(cached at 0, accessed at 1000000, window 5) it does nothing at all, while
the ordinary staleness-window behaviour of `load_info` at the same state
would refresh and change the record. -/
theorem job_terminal_ignores_staleness_counterexample :
    jobLoadInfo
        { id := some 1, ignore_cache := false, cached := some 0,
          mtime := some 1,
          serialized_info := some (some [("mtime", Value.int 1), ("ctime", Value.vnone)]) }
        "h" (Sum.inr [("mtime", Value.int 2), ("ctime", Value.vnone)]) =
      RefreshOutcome.ok
        { id := some 1, ignore_cache := false, cached := some 0,
          mtime := some 1,
          serialized_info := some (some [("mtime", Value.int 1), ("ctime", Value.vnone)]) }
        [] ∧
    load_info
        { id := some 1, ignore_cache := false, cached := some 0,
          mtime := some 1,
          serialized_info := some (some [("mtime", Value.int 1), ("ctime", Value.vnone)]) }
        (Sum.inr [("mtime", Value.int 2), ("ctime", Value.vnone)]) 1000000 5 ≠
      RefreshOutcome.ok
        { id := some 1, ignore_cache := false, cached := some 0,
          mtime := some 1,
          serialized_info := some (some [("mtime", Value.int 1), ("ctime", Value.vnone)]) }
        [] := by
  decide

/-- Claim C5 as amended: a Job created pending (`ignore_cache` true) stays
pending under a refresh whose payload reports status `running`; a refresh
whose payload reports a terminal status (`success` or `error`) flips it to
terminal, persisting the flag with a narrow update before the full save;
terminal is absorbing — but instead of falling back to the ordinary
staleness-window caching, a terminal job's `load_info` does nothing at all:
it never fetches and leaves the record unchanged. -/
theorem job_state_machine
    (s : CachedClusterObject) (n : Nat) (ch : String) (p1 p2 : Info)
    (hid : s.id = some n) (hn : n ≠ 0) (hic : s.ignore_cache = true)
    (h1 : lookupInfo p1 "status" = some (Value.str "running"))
    (h2 : lookupInfo p2 "status" = some (Value.str "success")) :
    ∃ s1, jobLoadInfo s ch (Sum.inr p1) =
        RefreshOutcome.ok s1 [DbOp.fullSave s1] ∧
      s1.ignore_cache = true ∧ s1.status = some (Value.str "running") ∧
      s1.infoB = some p1 ∧ s1.id = s.id ∧
      ∃ s2, jobLoadInfo s1 ch (Sum.inr p2) =
          RefreshOutcome.ok s2
            [DbOp.updateIgnoreCache s.id false, DbOp.fullSave s2] ∧
        s2.ignore_cache = false ∧ s2.status = some (Value.str "success") ∧
        s2.infoB = some p2 ∧
        ∀ f, jobLoadInfo s2 ch f = RefreshOutcome.ok s2 [] := by
  have htr : truthyId s.id = true := by simp [hid, truthyId, hn]
  refine ⟨{ s with infoB := some p1, status := some (Value.str "running"), serialized_info := some (some p1) }, ?_, hic, rfl, rfl, rfl, ?_⟩
  · simp [jobLoadInfo, htr, hic, jobParseInfo, jobParsePersistentInfo,
          CachedClusterObject.info, h1, jobSave, hid, ccoSave, truthyId, hn]
  · refine ⟨{ s with infoB := some p2, status := some (Value.str "success"), ignore_cache := false, serialized_info := some (some p2) }, ?_, rfl, rfl, rfl, ?_⟩
    · simp [jobLoadInfo, htr, hic, jobParseInfo, jobParsePersistentInfo,
            CachedClusterObject.info, h2, jobSave, hid, ccoSave, truthyId, hn]
    · intro f
      simp [jobLoadInfo]

/-- Witness for the amended C5 theorem at a concrete pending job and two
concrete status payloads. -/
theorem job_state_machine_witness :
    ∃ s1, jobLoadInfo { id := some 6, ignore_cache := true } "h"
        (Sum.inr [("status", Value.str "running")]) =
        RefreshOutcome.ok s1 [DbOp.fullSave s1] ∧
      s1.ignore_cache = true ∧ s1.status = some (Value.str "running") ∧
      s1.infoB = some [("status", Value.str "running")] ∧ s1.id = some 6 ∧
      ∃ s2, jobLoadInfo s1 "h" (Sum.inr [("status", Value.str "success")]) =
          RefreshOutcome.ok s2
            [DbOp.updateIgnoreCache (some 6) false, DbOp.fullSave s2] ∧
        s2.ignore_cache = false ∧ s2.status = some (Value.str "success") ∧
        s2.infoB = some [("status", Value.str "success")] ∧
        ∀ f, jobLoadInfo s2 "h" f = RefreshOutcome.ok s2 [] := by
  exact job_state_machine { id := some 6, ignore_cache := true } 6 "h"
    [("status", Value.str "running")] [("status", Value.str "success")]
    rfl (by decide) rfl rfl rfl




/-- Bound keys after `adel`: the deleted key is gone, other keys unchanged. -/
theorem alookup_adel {α β : Type} [DecidableEq α] (l : List (α × β)) (k k2 : α) :
    alookup (adel l k) k2 = if k2 = k then none else alookup l k2 := by
  induction l with
  | nil => simp [adel, alookup]
  | cons kv rest ih =>
    have hrest : adel (kv :: rest) k =
        if kv.1 = k then adel rest k else kv :: adel rest k := by
      by_cases h : kv.1 = k <;> simp [adel, List.filter_cons, h]
    rw [hrest]
    by_cases h1 : kv.1 = k
    · rw [if_pos h1, ih]
      by_cases h2 : k2 = k
      · simp [h2]
      · have hne : ¬ kv.1 = k2 := by rw [h1]; exact fun hh => h2 hh.symm
        simp [alookup, hne]
    · rw [if_neg h1]
      by_cases h3 : kv.1 = k2
      · have h2 : ¬ k2 = k := by rw [← h3]; exact fun hh => h1 hh
        simp [alookup, h3, h2]
      · simp [alookup, h3, ih]

/-- `adel` preserves key distinctness. -/
theorem keysNodup_adel {α β : Type} [DecidableEq α] (l : List (α × β)) (k : α)
    (h : keysNodup l) : keysNodup (adel l k) :=
  List.Nodup.sublist (List.Sublist.map Prod.fst (List.filter_sublist l)) h

/-- The deleted key is absent from the keys of `adel`. -/
theorem not_mem_keys_adel {α β : Type} [DecidableEq α] (l : List (α × β)) (k : α) :
    k ∉ (adel l k).map Prod.fst := by
  intro hmem
  rcases List.mem_map.mp hmem with ⟨kv, hkv, hfst⟩
  have := List.of_mem_filter hkv
  simp at this
  exact this (hfst ▸ rfl)

/-- `aset` preserves key distinctness (dict semantics: at most one binding
per key survives an assignment). -/
theorem keysNodup_aset {α β : Type} [DecidableEq α] (l : List (α × β)) (k : α)
    (v : β) (h : keysNodup l) : keysNodup (aset l k v) := by
  unfold keysNodup aset
  simp only [List.map_cons, List.nodup_cons]
  exact ⟨not_mem_keys_adel l k, keysNodup_adel l k h⟩

/-- `get_rapi` preserves the registry shape backing the at-most-one-client-
per-fingerprint guarantee: bound fingerprints stay pairwise distinct. -/
theorem get_rapi_preserves_keysNodup (st : RapiState) (hash : String)
    (db : List ClusterRow) (clusterId : Nat) (c : RapiClient) (st2 : RapiState)
    (hwf : keysNodup st.cache)
    (h : get_rapi st hash db clusterId = some (c, st2)) :
    keysNodup st2.cache := by
  unfold get_rapi at h
  split at h
  · simp only [Option.some.injEq, Prod.mk.injEq] at h
    rw [← h.2]; exact hwf
  · split at h
    · simp at h
    · dsimp only at h
      split at h
      · simp only [Option.some.injEq, Prod.mk.injEq] at h
        rw [← h.2]; exact hwf
      · simp only [Option.some.injEq, Prod.mk.injEq] at h
        rw [← h.2]
        split
        · exact keysNodup_aset _ _ _ (keysNodup_adel _ _ hwf)
        · exact keysNodup_aset _ _ _ hwf

/-- Counterexample to claim C4: after the cluster's credentials change, a
call to `get_rapi` is claimed to return a newly constructed handle, with the
handle built from the rotated-out credentials no longer retrievable by its
old fingerprint.  But `get_rapi` returns a cache hit on the caller-supplied
fingerprint before re-resolving credentials: here the cluster's stored
credentials (and fingerprint, now "hB") have changed, yet a call presenting
the rotated-out fingerprint "hA" still returns the old handle, unchanged
registry included. -/
theorem get_rapi_stale_fingerprint_counterexample :
    get_rapi
        { cache := [("hA", { cid := 0, host := "host", port := 5080,
                             username := some "u", password := some "p" })],
          cacheHashes := [(1, "hA")], counter := 1 }
        "hA" [{ id := 1, hash := "hB", hostname := "host", port := 5080,
                username := "u2", password := "p2" }] 1 =
      some ({ cid := 0, host := "host", port := 5080,
              username := some "u", password := some "p" },
        { cache := [("hA", { cid := 0, host := "host", port := 5080,
                             username := some "u", password := some "p" })],
          cacheHashes := [(1, "hA")], counter := 1 }) := by
  decide

/-- Claim C4 as amended: with unchanged credentials, two `get_rapi` calls
return the identical handle and leave the registry untouched; after a
credential rotation, a call presenting a fingerprint that is not cached (in
particular the current one) constructs a fresh handle, caches it under the
fresh fingerprint and evicts the rotated-out fingerprint, which thereafter
resolves to nothing; fingerprints bound in the registry stay pairwise
distinct (at most one live handle per fingerprint) — but a call presenting
the rotated-out fingerprint while it is still cached returns the stale
handle (see the counterexample). -/
theorem get_rapi_rotation
    (fpA fpB hostA hostB uA uB pA pB : String) (portA portB : Nat)
    (hne : fpA ≠ fpB) :
    ∃ c1 st1,
      get_rapi { cache := [], cacheHashes := [], counter := 0 } fpA
          [{ id := 1, hash := fpA, hostname := hostA, port := portA,
             username := uA, password := pA }] 1 = some (c1, st1) ∧
      get_rapi st1 fpA
          [{ id := 1, hash := fpA, hostname := hostA, port := portA,
             username := uA, password := pA }] 1 = some (c1, st1) ∧
      keysNodup st1.cache ∧
      ∃ c2 st2,
        get_rapi st1 fpB
            [{ id := 1, hash := fpB, hostname := hostB, port := portB,
               username := uB, password := pB }] 1 = some (c2, st2) ∧
        c2 ≠ c1 ∧
        alookup st2.cache fpA = none ∧
        alookup st2.cache fpB = some c2 ∧
        keysNodup st2.cache := by
  refine ⟨{ cid := 0, host := hostA, port := portA,
            username := if uA = "" then none else some uA,
            password := if pA = "" then none else some pA },
          { cache := [(fpA, { cid := 0, host := hostA, port := portA,
                              username := if uA = "" then none else some uA,
                              password := if pA = "" then none else some pA })],
            cacheHashes := [(1, fpA)], counter := 1 },
          ?_, ?_, ?_, ?_⟩
  · simp [get_rapi, alookup, adel, aset]
  · simp [get_rapi, alookup]
  · simp [keysNodup]
  · have hne2 : ¬ fpB = fpA := fun hh => hne hh.symm
    refine ⟨{ cid := 1, host := hostB, port := portB,
              username := if uB = "" then none else some uB,
              password := if pB = "" then none else some pB },
            { cache := [(fpB, { cid := 1, host := hostB, port := portB,
                                username := if uB = "" then none else some uB,
                                password := if pB = "" then none else some pB })],
              cacheHashes := [(1, fpB)], counter := 2 },
            ?_, ?_, ?_, ?_, ?_⟩
    · simp [get_rapi, alookup, adel, aset, hne, hne2]
    · intro hcon
      have hcid := congrArg RapiClient.cid hcon
      simp at hcid
    · simp [alookup, hne2]
    · simp [alookup]
    · simp [keysNodup]

/-- Witness for the amended C4 theorem at concrete credentials. -/
theorem get_rapi_rotation_witness :
    ∃ c1 st1,
      get_rapi { cache := [], cacheHashes := [], counter := 0 } "a"
          [{ id := 1, hash := "a", hostname := "h1", port := 1,
             username := "u1", password := "p1" }] 1 = some (c1, st1) ∧
      get_rapi st1 "a"
          [{ id := 1, hash := "a", hostname := "h1", port := 1,
             username := "u1", password := "p1" }] 1 = some (c1, st1) ∧
      keysNodup st1.cache ∧
      ∃ c2 st2,
        get_rapi st1 "b"
            [{ id := 1, hash := "b", hostname := "h2", port := 2,
               username := "u2", password := "p2" }] 1 = some (c2, st2) ∧
        c2 ≠ c1 ∧
        alookup st2.cache "a" = none ∧
        alookup st2.cache "b" = some c2 ∧
        keysNodup st2.cache := by
  exact get_rapi_rotation "a" "b" "h1" "h2" "u1" "u2" "p1" "p2" 1 2 (by decide)

/-- Hostnames of rows built from a hostname list are that list. -/
theorem hostnames_mk (l : List String) :
    hostnames (l.map (fun h => VMRow.mk h none)) = l := by
  simp only [hostnames, List.map_map]
  exact List.map_id l

/-- Hostnames of an appended row list. -/
theorem hostnames_append (a b : List VMRow) :
    hostnames (a ++ b) = hostnames a ++ hostnames b :=
  List.map_append _ a b

/-- Filtering rows by a hostname predicate commutes with taking hostnames. -/
theorem hostnames_filter (l : List VMRow) (p : String → Bool) :
    hostnames (l.filter (fun r => p r.hostname)) = (hostnames l).filter p := by
  induction l with
  | nil => rfl
  | cons r rest ih =>
    by_cases h : p r.hostname <;>
      simp [hostnames, List.filter_cons, h] at ih ⊢ <;> exact ih

/-- Claim C6: for remote hostname set `R` (`ganeti`) and local rows `db`,
`sync_virtual_machines` with `remove=false` creates exactly one ownerless
local record per hostname in `R` minus `L` and deletes nothing, and a second
run performs no further insert; with `remove=true` it additionally deletes
each record whose hostname is in `L` minus `R` exactly once, converging to a
local hostname set equal to `R`, after which it is a no-op. -/
theorem sync_reconciliation (ganeti : List String) (db : List VMRow)
    (hR : ganeti.Nodup) (hL : (hostnames db).Nodup) :
    ((sync_virtual_machines ganeti db false).2 = []) ∧
    (∀ x, x ∈ ganeti → x ∉ hostnames db →
      (hostnames (sync_virtual_machines ganeti db false).1).count x = 1) ∧
    (∀ r, r ∈ (sync_virtual_machines ganeti db false).1 → r ∉ db →
      r.owner = none) ∧
    (sync_virtual_machines ganeti (sync_virtual_machines ganeti db false).1 false =
      ((sync_virtual_machines ganeti db false).1, [])) ∧
    (∀ x, x ∈ hostnames (sync_virtual_machines ganeti db true).1 ↔ x ∈ ganeti) ∧
    (∀ x, x ∈ hostnames db → x ∉ ganeti →
      (sync_virtual_machines ganeti db true).2.count x = 1 ∧
      x ∉ hostnames (sync_virtual_machines ganeti db true).1) ∧
    (sync_virtual_machines ganeti (sync_virtual_machines ganeti db true).1 true =
      ((sync_virtual_machines ganeti db true).1, [])) := by
  have hfalse : ∀ (l : List VMRow), sync_virtual_machines ganeti l false =
      (l ++ (ganeti.filter (fun x => x ∉ hostnames l)).map (fun h => VMRow.mk h none),
       []) := fun l => rfl
  have htrue : ∀ (l : List VMRow), sync_virtual_machines ganeti l true =
      ((l ++ (ganeti.filter (fun x => x ∉ hostnames l)).map (fun h => VMRow.mk h none)).filter
         (fun r => r.hostname ∉ (hostnames l).filter (fun x => x ∉ ganeti)),
       (hostnames l).filter (fun x => x ∉ ganeti)) := fun l => rfl
  have host1 : hostnames (sync_virtual_machines ganeti db false).1 =
      hostnames db ++ ganeti.filter (fun x => x ∉ hostnames db) := by
    rw [hfalse, hostnames_append, hostnames_mk]
  have hmem1 : ∀ x, x ∈ ganeti → x ∈ hostnames (sync_virtual_machines ganeti db false).1 := by
    intro x hx
    rw [host1, List.mem_append]
    by_cases hcase : x ∈ hostnames db
    · exact Or.inl hcase
    · exact Or.inr (List.mem_filter.mpr ⟨hx, by simpa using hcase⟩)
  have host2 : hostnames (sync_virtual_machines ganeti db true).1 =
      (hostnames db ++ ganeti.filter (fun x => x ∉ hostnames db)).filter
        (fun x => x ∉ (hostnames db).filter (fun x => x ∉ ganeti)) := by
    rw [htrue]
    rw [hostnames_filter _ (fun x => decide (x ∉ (hostnames db).filter (fun x => x ∉ ganeti))),
        hostnames_append, hostnames_mk]
  have conj5 : ∀ x, x ∈ hostnames (sync_virtual_machines ganeti db true).1 ↔ x ∈ ganeti := by
    intro x
    rw [host2]
    simp only [List.mem_filter, List.mem_append, decide_eq_true_eq, not_and, not_not]
    constructor
    · rintro ⟨h1 | ⟨h1, _⟩, h2⟩
      · exact h2 h1
      · exact h1
    · intro hx
      constructor
      · by_cases hcase : x ∈ hostnames db
        · exact Or.inl hcase
        · exact Or.inr ⟨hx, hcase⟩
      · intro _; exact hx
  refine ⟨rfl, ?_, ?_, ?_, conj5, ?_, ?_⟩
  · intro x hx hnx
    rw [host1, List.count_append, List.count_eq_zero_of_not_mem hnx]
    have hmem : x ∈ ganeti.filter (fun x => x ∉ hostnames db) :=
      List.mem_filter.mpr ⟨hx, by simpa using hnx⟩
    rw [List.count_eq_one_of_mem (hR.filter _) hmem]
  · intro r hr hrdb
    rw [hfalse] at hr
    rcases List.mem_append.mp hr with h | h
    · exact absurd h hrdb
    · rcases List.mem_map.mp h with ⟨h2, hh2, rfl⟩
      rfl
  · have hadd2 : ganeti.filter
        (fun x => x ∉ hostnames (sync_virtual_machines ganeti db false).1) = [] := by
      rw [List.filter_eq_nil_iff]
      intro a ha
      simp only [decide_eq_true_eq, not_not]
      exact hmem1 a ha
    rw [hfalse, hadd2, List.map_nil, List.append_nil]
  · intro x hx hnx
    have hxm : x ∈ (hostnames db).filter (fun x => x ∉ ganeti) :=
      List.mem_filter.mpr ⟨hx, by simpa using hnx⟩
    constructor
    · have : (sync_virtual_machines ganeti db true).2 =
          (hostnames db).filter (fun x => x ∉ ganeti) := by rw [htrue]
      rw [this, List.count_eq_one_of_mem (hL.filter _) hxm]
    · intro hcon
      exact hnx ((conj5 x).mp hcon)
  · have hadd3 : ganeti.filter
        (fun x => x ∉ hostnames (sync_virtual_machines ganeti db true).1) = [] := by
      rw [List.filter_eq_nil_iff]
      intro a ha
      simp only [decide_eq_true_eq, not_not]
      exact (conj5 a).mpr ha
    have hmiss3 : (hostnames (sync_virtual_machines ganeti db true).1).filter
        (fun x => x ∉ ganeti) = [] := by
      rw [List.filter_eq_nil_iff]
      intro a ha
      simp only [decide_eq_true_eq, not_not]
      exact (conj5 a).mp ha
    rw [htrue (sync_virtual_machines ganeti db true).1, hadd3, hmiss3,
        List.map_nil, List.append_nil]
    have hself : (sync_virtual_machines ganeti db true).1.filter
        (fun r => r.hostname ∉ ([] : List String)) =
        (sync_virtual_machines ganeti db true).1 :=
      List.filter_eq_self.mpr (by intro a _; simp)
    rw [hself]

/-- Witness for C6 at the spec's concrete example: remote set a, b, c and
local set a. -/
theorem sync_reconciliation_witness :
    (sync_virtual_machines ["a", "b", "c"] [VMRow.mk "a" (some 7)] false).2 = [] ∧
    (hostnames (sync_virtual_machines ["a", "b", "c"] [VMRow.mk "a" (some 7)] false).1).count "b" = 1 ∧
    (sync_virtual_machines ["a"] [VMRow.mk "a" (some 7), VMRow.mk "b" none] true).2.count "b" = 1 := by
  have h1 := sync_reconciliation ["a", "b", "c"] [VMRow.mk "a" (some 7)]
    (by decide) (by decide)
  have h2 := sync_reconciliation ["a"] [VMRow.mk "a" (some 7), VMRow.mk "b" none]
    (by decide) (by decide)
  exact ⟨h1.1, h1.2.1 "b" (by decide) (by decide),
    (h2.2.2.2.2.2.1 "b" (by decide) (by decide)).1⟩

/-- Characterization of the tag-scan loop for a concrete current owner `y`,
under the well-formedness assumption that every owner-prefixed tag parses:
`found` is whether some tag encodes `y`, and the removal schedule is exactly
the owner-prefixed tags that do not. -/
theorem scanTags_characterization (y : Int) (tags : List String)
    (wf : ∀ t ∈ tags, ownerPrefixed t = true → (tagOwner t).isSome) :
    scanTags (some y) tags =
      Except.ok
        (tags.any (fun t => ownerPrefixed t && decide (tagOwner t = some y)),
         tags.filter (fun t => ownerPrefixed t && !(decide (tagOwner t = some y)))) := by
  induction tags with
  | nil => rfl
  | cons t ts ih =>
    have wf2 : ∀ u ∈ ts, ownerPrefixed u = true → (tagOwner u).isSome :=
      fun u hu => wf u (List.mem_cons_of_mem _ hu)
    have ih2 := ih wf2
    by_cases hp : ownerPrefixed t = true
    · rcases ho : tagOwner t with _ | i
      · have hsome := wf t (List.mem_cons_self _ _) hp
        rw [ho] at hsome
        simp at hsome
      · by_cases hi : i = y
        · subst hi
          simp [scanTags, hp, ho, ih2, List.filter_cons]
        · simp [scanTags, hp, ho, ih2, List.filter_cons, hi]
    · simp [scanTags, hp, ih2, List.filter_cons]

/-- Claim C7: on an Instance save with a (truthy) owner `y` and loaded tags,
the tag block batches all stale owner tags into at most one
`DeleteInstanceTags` call and adds the correct owner tag with at most one
`AddInstanceTags` call, keeping the in-memory list in step; a tag encoding a
previous owner `x ≠ y` is part of the single delete batch; if the correct tag
is already present and nothing is stale, no remote call is made; and for any
owner value, a save performs at most one delete batch and one add. -/
theorem vm_save_tag_reconciliation (y : Int) (host : String)
    (tags stale : List String) (found : Bool) (hy : y ≠ 0)
    (wf : ∀ t ∈ tags, ownerPrefixed t = true → (tagOwner t).isSome)
    (hstale : stale =
      tags.filter (fun t => ownerPrefixed t && !(decide (tagOwner t = some y))))
    (hfound : found =
      tags.any (fun t => ownerPrefixed t && decide (tagOwner t = some y))) :
    (vmSaveTags (some y) host tags =
      Except.ok
        ((if stale = [] then tags else removeEach tags stale) ++
           (if found then [] else [ownerTag y]),
         (if stale = [] then [] else [RapiCall.deleteTags host stale]) ++
           (if found then [] else [RapiCall.addTags host [ownerTag y]]))) ∧
    (found = true → stale = [] → vmSaveTags (some y) host tags =
      Except.ok (tags, [])) ∧
    (∀ t ∈ tags, ownerPrefixed t = true → ∀ x, tagOwner t = some x → x ≠ y →
      t ∈ stale) ∧
    (∀ oid tags2 calls, vmSaveTags oid host tags = Except.ok (tags2, calls) →
      (calls.filter RapiCall.isDelete).length ≤ 1 ∧
      (calls.filter RapiCall.isAdd).length ≤ 1) := by
  have hchar := scanTags_characterization y tags wf
  have hmain : vmSaveTags (some y) host tags =
      Except.ok
        ((if stale = [] then tags else removeEach tags stale) ++
           (if found then [] else [ownerTag y]),
         (if stale = [] then [] else [RapiCall.deleteTags host stale]) ++
           (if found then [] else [RapiCall.addTags host [ownerTag y]])) := by
    unfold vmSaveTags
    rw [hchar, ← hstale, ← hfound]
    dsimp only
    rcases found with _ | _
    · simp [truthyOwner, hy]
    · simp [truthyOwner, hy]
  refine ⟨hmain, ?_, ?_, ?_⟩
  · intro hf hs
    rw [hmain, hf, hs]
    simp
  · intro t ht hpfx x hx hxy
    rw [hstale]
    refine List.mem_filter.mpr ⟨ht, ?_⟩
    simp [hpfx, hx, Option.some.injEq, hxy]
  · intro oid tags2 calls h
    unfold vmSaveTags at h
    rcases hscan : scanTags oid tags with e | fr
    · rw [hscan] at h; exact absurd h (by simp)
    · rw [hscan] at h
      rcases fr with ⟨f, rem⟩
      dsimp only at h
      split at h
      · split at h
        · simp only [Except.ok.injEq, Prod.mk.injEq] at h
          rw [← h.2]
          by_cases hrem : rem = [] <;>
            simp [hrem, RapiCall.isDelete, RapiCall.isAdd, List.filter]
        · simp only [Except.ok.injEq, Prod.mk.injEq] at h
          rw [← h.2]
          by_cases hrem : rem = [] <;>
            simp [hrem, RapiCall.isDelete, RapiCall.isAdd, List.filter]
      · simp only [Except.ok.injEq, Prod.mk.injEq] at h
        rw [← h.2]
        by_cases hrem : rem = [] <;>
          simp [hrem, RapiCall.isDelete, RapiCall.isAdd, List.filter]

/-- Witness for C7 at a concrete save: owner changed from user 1 to user 2
with user 1's tag present (one delete batch, one add, in-memory list
updated), and an unchanged owner with the correct tag present (no calls). -/
theorem vm_save_tag_reconciliation_witness :
    vmSaveTags (some 2) "vm1" ["gwm:owner:1"] =
      Except.ok (["gwm:owner:2"],
        [RapiCall.deleteTags "vm1" ["gwm:owner:1"],
         RapiCall.addTags "vm1" ["gwm:owner:2"]]) ∧
    vmSaveTags (some 2) "vm1" ["gwm:owner:2"] = Except.ok (["gwm:owner:2"], []) := by
  have h1 := (vm_save_tag_reconciliation 2 "vm1" ["gwm:owner:1"]
    ["gwm:owner:1"] false (by decide) (by decide) (by decide) (by decide)).1
  have h2 := (vm_save_tag_reconciliation 2 "vm1" ["gwm:owner:2"]
    [] true (by decide) (by decide) (by decide) (by decide)).2.1 rfl rfl
  exact ⟨h1.trans (by rfl), h2⟩
